import Mathlib

/-!
Verification development for the Regulation-Compliance repository.

The Python source is shallowly embedded: pure functions become Lean
functions, stateful code becomes explicit state passing, machine floats
over small decimal constants become rationals, `datetime` values become
integers (seconds since an epoch; `timedelta.days` becomes flooring
division by 86400), and fallible code returns `Option`/`Except`.
Remote services (the LLM, the web-search provider, `json.loads`,
`ipaddress.ip_address`) are modelled as explicit oracle parameters.
-/

namespace RegComp

/-! ## Python string helpers

Python truthiness for optional strings: `None` and `""` are falsy.
`pyContains s pat` is Python `pat in s` (for non-empty `pat`);
`pyTake` is Python slicing `s[:n]` (counting code points, as Python does). -/

/-- Python truthiness of an optional string: `some s` with `s ≠ ""`. -/
def truthyStr : Option String → Option String
  | some s => if s = "" then none else some s
  | none => none

/-- Python `a or b` over optional strings (first truthy operand). -/
def strOr (a b : Option String) : Option String :=
  match truthyStr a with
  | some s => some s
  | none => b

/-- Leftmost non-overlapping split of a character list on a non-empty
separator, with enough fuel to scan the whole input (each step consumes
at least one character). -/
def splitAux (sep : List Char) : Nat → List Char → List Char → List (List Char)
  | 0, _, acc => [acc.reverse]
  | fuel + 1, l, acc =>
      if sep.isPrefixOf l ∧ sep ≠ [] then
        acc.reverse :: splitAux sep fuel (l.drop sep.length) []
      else
        match l with
        | [] => [acc.reverse]
        | c :: rest => splitAux sep fuel rest (c :: acc)

/-- Python `s.split(sep)` for a non-empty separator. -/
def pySplit (s sep : String) : List String :=
  (splitAux sep.data (s.data.length + 1) s.data []).map fun cs => ⟨cs⟩

/-- Python `pat in s` for a non-empty pattern, via leftmost
non-overlapping splitting (the same notion `str.split` uses). -/
def pyContains (s pat : String) : Bool :=
  2 ≤ (pySplit s pat).length

/-- Python `s.lower()` (ASCII case folding; hostnames and the markers
the code lowercases are ASCII). -/
def pyToLower (s : String) : String :=
  ⟨s.data.map Char.toLower⟩

/-- Python `s[:n]` (first `n` code points). -/
def pyTake (s : String) (n : Nat) : String :=
  ⟨s.data.take n⟩

/-- Length of a Python string = number of code points. -/
def pyLen (s : String) : Nat :=
  s.data.length

/-! ## Database model (src/src/database/models.py, manager.py)

`RegulationBaseline` rows, restricted to the columns the embedded
operations read or write.  Timestamps are seconds since an epoch
(`Int`); nullable columns are `Option`. -/

structure Regulation where
  id : Nat
  name : String
  name_en : Option String
  name_zh : Option String
  country_code : String
  industry_code : String
  topic_code : String
  regulation_type : Option String
  issuing_authority : Option String
  official_url : Option String
  search_keywords : Option (List String)
  is_mandatory : Bool
  is_verified : Bool
  is_active : Bool
  source : String
  confidence_score : ℚ
  found_count : Option Nat
  not_found_count : Option Nat
  last_verified_at : Option Int
  last_found_at : Option Int
  deriving DecidableEq, Repr

/-- A `verification_logs` row (models.py `VerificationLog`). -/
structure VerificationLog where
  regulation_id : Nat
  verification_type : String
  was_found : Bool
  search_query : Option String
  search_results_count : Option Nat
  old_confidence : ℚ
  new_confidence : ℚ
  notes : Option String
  verified_by : String
  verified_at : Int
  deriving DecidableEq, Repr

/-- Python `(utcnow() - t).days`: flooring division of the difference in
seconds by 86400 (`timedelta.days` floors toward minus infinity). -/
def daysBetween (now t : Int) : Int :=
  (now - t).fdiv 86400

/-- `any(gov in url for gov in [".gov", ".go.", ".gob"])`
(manager.py line 288). -/
def govUrl (u : String) : Bool :=
  pyContains u ".gov" || pyContains u ".go." || pyContains u ".gob"

/-- Clamp to [0, 1]: `max(0.0, min(1.0, score))` (manager.py line 313). -/
def clamp01 (q : ℚ) : ℚ :=
  max 0 (min 1 q)

/-- `BaselineManager.calculate_confidence` (manager.py lines 265-313),
translated step by step: each `if` of the source is one `let` rebind of
`score`; `now` stands for `datetime.utcnow()`. -/
def calculate_confidence (r : Regulation) (now : Int) : ℚ :=
  let score : ℚ := 0
  let score := if r.is_verified then score + 3/10 else score
  let score :=
    match truthyStr r.official_url with
    | some u => if govUrl u then score + 3/10 else score + 1/10
    | none => score
  let score :=
    match r.last_found_at with
    | some lf =>
        let d := daysBetween now lf
        if d ≤ 30 then score + 2/10 else if d ≤ 90 then score + 1/10 else score
    | none => score
  let score := if 3 ≤ r.found_count.getD 0 then score + 2/10 else score
  let score :=
    match r.last_found_at with
    | some lf => if 90 < daysBetween now lf then score - 3/10 else score
    | none => score
  let score := if 3 ≤ r.not_found_count.getD 0 then score - 2/10 else score
  clamp01 score

/-- Modelled from the spec's words (§4.4 "Confidence recomputation", as
quoted by the claim): start at 0; add 0.3 if verified; add 0.3 if the
official URL contains a government-TLD fragment, else 0.1 if an official
URL is set (an empty string counts as unset, Python truthiness); add 0.2
if last found within 30 days, else 0.1 if within 90; add 0.2 if
`found_count ≥ 3`; subtract 0.3 if last found more than 90 days ago;
subtract 0.2 if `not_found_count ≥ 3`; clamp to [0, 1]. -/
def confidenceSpecFormula (r : Regulation) (now : Int) : ℚ :=
  clamp01 <|
    (if r.is_verified then (3 : ℚ)/10 else 0)
    + (match truthyStr r.official_url with
       | some u => if govUrl u then (3 : ℚ)/10 else 1/10
       | none => 0)
    + (match r.last_found_at with
       | some lf =>
           if daysBetween now lf ≤ 30 then (2 : ℚ)/10
           else if daysBetween now lf ≤ 90 then 1/10 else 0
       | none => 0)
    + (if 3 ≤ r.found_count.getD 0 then (2 : ℚ)/10 else 0)
    - (match r.last_found_at with
       | some lf => if 90 < daysBetween now lf then (3 : ℚ)/10 else 0
       | none => 0)
    - (if 3 ≤ r.not_found_count.getD 0 then (2 : ℚ)/10 else 0)

/-! ## Baseline add (manager.py `add_regulation`, lines 102-152)

The store is the list of `regulation_baselines` rows; `find?` is the
`filter(and_(...)).first()` lookup on the identity
`(name, country_code, industry_code)`. -/

/-- Python `search_keywords or [name]`: `None` and `[]` are falsy. -/
def listOr (a : Option (List String)) (b : List String) : List String :=
  match a with
  | some l => if l = [] then b else l
  | none => b

/-- The keyword parameters of `add_regulation`. -/
structure AddArgs where
  name : String
  country_code : String
  industry_code : String
  topic_code : String
  name_en : Option String := none
  name_zh : Option String := none
  regulation_type : Option String := none
  issuing_authority : Option String := none
  official_url : Option String := none
  search_keywords : Option (List String) := none
  is_mandatory : Bool := false
  source : String := "manual"
  deriving DecidableEq, Repr

/-- The identity check of `add_regulation`, line 120-126. -/
def sameIdentity (name cc ic : String) (r : Regulation) : Bool :=
  r.name == name && r.country_code == cc && r.industry_code == ic

/-- The `RegulationBaseline(...)` constructed at lines 132-147; columns
the call leaves unset take the column defaults of models.py
(`is_active=True`, counters 0, verification timestamps NULL).  `newId`
stands for the autoincremented primary key. -/
def mkRegulation (a : AddArgs) (newId : Nat) : Regulation where
  id := newId
  name := a.name
  name_en := a.name_en
  name_zh := a.name_zh
  country_code := a.country_code
  industry_code := a.industry_code
  topic_code := a.topic_code
  regulation_type := a.regulation_type
  issuing_authority := a.issuing_authority
  official_url := a.official_url
  search_keywords := some (listOr a.search_keywords [a.name])
  is_mandatory := a.is_mandatory
  is_verified := a.source == "manual"
  is_active := true
  source := a.source
  confidence_score := if a.source = "manual" then 5/10 else 3/10
  found_count := some 0
  not_found_count := some 0
  last_verified_at := none
  last_found_at := none

/-- `BaselineManager.add_regulation`: return the existing row unchanged
when one with the same identity exists, otherwise insert a new row and
return it. -/
def add_regulation (store : List Regulation) (a : AddArgs) :
    List Regulation × Regulation :=
  match store.find? (sameIdentity a.name a.country_code a.industry_code) with
  | some existing => (store, existing)
  | none =>
      let reg := mkRegulation a (store.length + 1)
      (store ++ [reg], reg)

/-! ## Verification recording (manager.py `record_verification`,
lines 332-381) and the scheduled verifier (verifier.py).

`record_verification` is modelled on a row already looked up (the
verifier always passes the id of an existing row; the `ValueError` for a
missing id is outside the claims).  The web-search call is an oracle:
its observable outcomes are a parsed `status=="success"` document with a
result list, a non-success document carrying an error message, or a
raised exception. -/

/-- `BaselineManager.record_verification`: bump the matching counter,
stamp `last_found_at` (when found) and `last_verified_at`, recompute the
confidence, and build the log row. -/
def record_verification (reg : Regulation) (was_found : Bool)
    (verification_type : String) (search_query : Option String)
    (search_results_count : Option Nat) (notes : Option String)
    (verified_by : String) (now : Int) : Regulation × VerificationLog :=
  let old_confidence := reg.confidence_score
  let reg :=
    if was_found then
      { reg with last_found_at := some now,
                 found_count := some (reg.found_count.getD 0 + 1) }
    else
      { reg with not_found_count := some (reg.not_found_count.getD 0 + 1) }
  let reg := { reg with last_verified_at := some now }
  let new_confidence := calculate_confidence reg now
  let reg := { reg with confidence_score := new_confidence }
  let log : VerificationLog :=
    { regulation_id := reg.id
      verification_type := verification_type
      was_found := was_found
      search_query := search_query
      search_results_count := search_results_count
      old_confidence := old_confidence
      new_confidence := new_confidence
      notes := notes
      verified_by := verified_by
      verified_at := now }
  (reg, log)

/-- One entry of the search provider's `results` list. -/
structure SearchHit where
  title : String
  url : String
  deriving DecidableEq, Repr

/-- Observable outcome of `self.search_function(keyword, num_results=3)`
followed by `json.loads`: a success document, a non-success document
(`data.get("error", "搜尋失敗")` already applied), or an exception. -/
inductive SearchOutcome where
  | success (results : List SearchHit)
  | failed (errMsg : String)
  | exn (msg : String)
  deriving DecidableEq, Repr

/-- The outcome kinds the claims group as provider failures. -/
def SearchOutcome.isErr : SearchOutcome → Bool
  | .success _ => false
  | .failed _ => true
  | .exn _ => true

/-- The `result` dict `verify_single` builds and returns. -/
structure VerifyDetail where
  regulation_id : Nat
  regulation_name : String
  country_code : String
  was_found : Bool
  search_results_count : Nat
  top_result : Option (String × String)
  old_confidence : ℚ
  new_confidence : ℚ
  error : Option String
  deriving DecidableEq, Repr

/-- `json.dumps(result["top_result"], ensure_ascii=False)` of the
two-key `top_result` dict (escaping is immaterial to the claims; the
titles the model evaluates contain no characters needing escapes). -/
def topResultNotes (t : String × String) : String :=
  "\x7b\"title\": \"" ++ t.1 ++ "\", \"url\": \"" ++ t.2 ++ "\"\x7d"

/-- `RegulationVerifier.verify_single` (verifier.py lines 49-124):
classify the search outcome, then always call `record_verification`
(with `was_found=False` unless a success document had results). -/
def verify_single (reg : Regulation) (outcome : SearchOutcome) (now : Int) :
    VerifyDetail × Regulation × VerificationLog :=
  let keywords := listOr reg.search_keywords [reg.name]
  let keyword := keywords.headD reg.name
  let (was_found, cnt, top, err) :=
    match outcome with
    | .success results =>
        match results with
        | [] => (false, 0, none, none)
        | r :: _ =>
            (true, results.length, some (pyTake r.title 100, r.url),
             (none : Option String))
    | .failed e => (false, 0, none, some e)
    | .exn e => (false, 0, none, some e)
  let (reg2, log) := record_verification reg was_found "scheduled"
    (some keyword) (some cnt) (top.map topResultNotes) "system" now
  ({ regulation_id := reg.id
     regulation_name := reg.name
     country_code := reg.country_code
     was_found := was_found
     search_results_count := cnt
     top_result := top
     old_confidence := reg.confidence_score
     new_confidence := log.new_confidence
     error := err }, reg2, log)

/-- Which summary counter a candidate's detail bumps
(`if result["error"]: errors elif result["was_found"]: found
else: not_found`, verifier.py lines 186-191 and 273-278). -/
def summaryKeyOf (det : VerifyDetail) : String :=
  if det.error.isSome then "errors"
  else if det.was_found then "found"
  else "not_found"

/-- A value of the summary dict `verify_stale` builds. -/
inductive DVal where
  | num (n : Nat)
  | str (s : String)
  | arr (l : List VerifyDetail)
  deriving DecidableEq, Repr

/-- The summary dict, as the ordered key/value pairs a Python dict holds. -/
abbrev SummaryDoc := List (String × DVal)

/-- Python `d[k]` (as `Option`). -/
def dictGet (d : SummaryDoc) (k : String) : Option DVal :=
  (d.find? (fun p => p.1 == k)).map (·.2)

/-- Python `d[k] = v`: overwrite in place, append when absent. -/
def dictSet : SummaryDoc → String → DVal → SummaryDoc
  | [], k, v => [(k, v)]
  | (k', v') :: rest, k, v =>
      if k' == k then (k', v) :: rest else (k', v') :: dictSet rest k v

/-- The numeric value at a key (0 when absent or non-numeric). -/
def dictNat (d : SummaryDoc) (k : String) : Nat :=
  match dictGet d k with
  | some (.num n) => n
  | _ => 0

/-- Python `results[k] += 1`. -/
def bump (d : SummaryDoc) (k : String) : SummaryDoc :=
  dictSet d k (.num (dictNat d k + 1))

/-- The details list at `"details"`. -/
def dictDetails (d : SummaryDoc) : List VerifyDetail :=
  match dictGet d "details" with
  | some (.arr l) => l
  | _ => []

/-- The summary dict after one loop iteration (the first component of
`staleStep`), named for the step lemmas below. -/
def stepDict (d : SummaryDoc) (det : VerifyDetail) : SummaryDoc :=
  bump (bump (dictSet d "details" (.arr (dictDetails d ++ [det])))
    "verified") (summaryKeyOf det)

/-- One iteration of the `verify_stale` loop (verifier.py lines
268-278): verify the candidate, append its detail, bump `verified` and
the outcome counter. -/
def staleStep (oracle : Regulation → SearchOutcome) (now : Int)
    (acc : SummaryDoc × List (Regulation × VerificationLog))
    (reg : Regulation) : SummaryDoc × List (Regulation × VerificationLog) :=
  let v := verify_single reg (oracle reg) now
  let det := v.1
  let d := dictSet acc.1 "details" (.arr (dictDetails acc.1 ++ [det]))
  let d := bump d "verified"
  let d := bump d (summaryKeyOf det)
  (d, acc.2 ++ [v.2])

/-- The stale-candidate query of `verify_stale` (lines 238-249):
active rows never verified or verified before the threshold, ordered by
`is_mandatory DESC` (stable on the stored order), capped at
`max_count`. -/
def staleCandidates (db : List Regulation) (now : Int)
    (days_threshold max_count : Nat) : List Regulation :=
  let threshold := now - 86400 * (days_threshold : Int)
  let stale := db.filter fun r =>
    r.is_active &&
      (match r.last_verified_at with
       | none => true
       | some t => decide (t < threshold))
  (stale.filter (fun r => r.is_mandatory)
    ++ stale.filter (fun r => !r.is_mandatory)).take max_count

/-- `RegulationVerifier.verify_stale` (lines 218-283): select stale
candidates and fold the verification loop over them, starting from the
literal summary dict of lines 258-266.  `ts` stands for
`datetime.now().isoformat()`. -/
def verify_stale (db : List Regulation) (oracle : Regulation → SearchOutcome)
    (now : Int) (days_threshold max_count : Nat) (ts : String) :
    SummaryDoc × List (Regulation × VerificationLog) :=
  let cands := staleCandidates db now days_threshold max_count
  let init : SummaryDoc :=
    [("total", .num cands.length), ("verified", .num 0), ("found", .num 0),
     ("not_found", .num 0), ("errors", .num 0), ("details", .arr []),
     ("timestamp", .str ts)]
  cands.foldl (staleStep oracle now) (init, [])

/-- `run_scheduled_verification` (verifier.py lines 363-390): runs
`verify_stale` with its `days_threshold`/`max_count` arguments
(defaults 30 and 50). -/
def run_scheduled_verification (db : List Regulation)
    (oracle : Regulation → SearchOutcome) (now : Int) (ts : String)
    (days_threshold : Nat := 30) (max_count : Nat := 50) :
    SummaryDoc × List (Regulation × VerificationLog) :=
  verify_stale db oracle now days_threshold max_count ts

/-- A key holds a plain number consistent with `dictNat`. -/
def numAt (d : SummaryDoc) (k : String) : Prop :=
  dictGet d k = some (.num (dictNat d k))

/-- A concrete baseline row, used to evaluate the embedded verifier on a
closed input. -/
def regSample : Regulation where
  id := 1
  name := "個人資料保護法"
  name_en := some "Personal Data Protection Act"
  name_zh := none
  country_code := "TW"
  industry_code := "finance_general"
  topic_code := "privacy"
  regulation_type := some "法律"
  issuing_authority := none
  official_url := some "https://law.moj.gov.tw"
  search_keywords := some ["個資法"]
  is_mandatory := true
  is_verified := true
  is_active := true
  source := "manual"
  confidence_score := 5/10
  found_count := some 0
  not_found_count := some 0
  last_verified_at := none
  last_found_at := none

/-- A search oracle that always returns one hit. -/
def oracleFound : Regulation → SearchOutcome :=
  fun _ => .success [⟨"個人資料保護法", "https://law.moj.gov.tw"⟩]

/-! ## Researcher findings and dedup
(langgraph_team.py `researcher_node`, lines 361-374)

A finding is one of the dicts the tool-result parsing appends to
`findings`; the embedded record keeps the keys the dedup, enrichment and
validator trimming read. -/

structure SearchItem where
  title : Option String := none
  name : Option String := none
  url : Option String := none
  href : Option String := none
  source_url : Option String := none
  snippet : Option String := none
  body : Option String := none
  content_type : Option String := none
  full_content : Option String := none
  content_fetched : Bool := false
  fetch_error : Option String := none
  deriving DecidableEq, Repr

/-- `item.get('url') or item.get('href') or item.get('source_url')`
followed by the `if url:` truthiness test (lines 365-366). -/
def canonicalUrl (i : SearchItem) : Option String :=
  truthyStr (strOr i.url (strOr i.href i.source_url))

/-- The dedup loop of lines 362-371, with the `seen_urls` set carried
explicitly (membership in the list is set membership). -/
def dedupAux (seen : List String) : List SearchItem → List SearchItem
  | [] => []
  | i :: rest =>
      match canonicalUrl i with
      | some u =>
          if u ∈ seen then dedupAux seen rest
          else i :: dedupAux (u :: seen) rest
      | none => i :: dedupAux seen rest

/-- `unique_findings` as computed from `findings`. -/
def dedupFindings (l : List SearchItem) : List SearchItem :=
  dedupAux [] l

/-! ## Validator context budgeting
(langgraph_team.py `validator_node`, lines 501-560)

`json.dumps(trimmed, ensure_ascii=False)` of one trimmed item is
serialized with Python's default separators; its character count drives
the budget. -/

/-- `TARGET_TOTAL_CHARS = 150000` (line 504). -/
def TARGET_TOTAL_CHARS : Nat := 150000

/-- `MAX_CONTENT_LENGTH = 2000` (line 505). -/
def MAX_CONTENT_LENGTH : Nat := 2000

/-- The truncation marker appended at lines 406 and 528. -/
def truncationMarker : String := "\n... (內容已截斷)"

/-- One character under Python `json.dumps(..., ensure_ascii=False)`:
quote, backslash and control characters are escaped, everything else is
emitted as is. -/
def escChar (c : Char) : String :=
  if c = '"' then "\\\""
  else if c = '\\' then "\\\\"
  else if c = '\n' then "\\n"
  else if c = '\t' then "\\t"
  else if c = '\r' then "\\r"
  else if c.toNat = 8 then "\\b"
  else if c.toNat = 12 then "\\f"
  else if c.toNat < 32 then
    "\\u00" ++ String.singleton (Nat.digitChar (c.toNat / 16))
      ++ String.singleton (Nat.digitChar (c.toNat % 16))
  else String.singleton c

/-- A JSON string literal as `json.dumps` emits it. -/
def pyJsonStr (s : String) : String :=
  "\"" ++ String.join (s.data.map escChar) ++ "\""

/-- A trimmed item: the phase-1 shape (line 519-530, five string
fields) or the phase-2 shape (line 545-550, `full_content` null). -/
inductive TrimmedItem where
  | withContent (title url snippet ctype full_content : String)
  | noContent (title url snippet : String)
  deriving DecidableEq, Repr

/-- `json.dumps` of a trimmed item (insertion-ordered keys, default
separators). -/
def trimmedJson : TrimmedItem → String
  | .withContent t u sn ct fc =>
      "\x7b\"title\": " ++ pyJsonStr t ++ ", \"url\": " ++ pyJsonStr u
        ++ ", \"snippet\": " ++ pyJsonStr sn
        ++ ", \"content_type\": " ++ pyJsonStr ct
        ++ ", \"full_content\": " ++ pyJsonStr fc ++ "\x7d"
  | .noContent t u sn =>
      "\x7b\"title\": " ++ pyJsonStr t ++ ", \"url\": " ++ pyJsonStr u
        ++ ", \"snippet\": " ++ pyJsonStr sn
        ++ ", \"full_content\": null\x7d"

/-- `len(json.dumps(trimmed, ensure_ascii=False))` (lines 533 and 552). -/
def itemChars (t : TrimmedItem) : Nat :=
  pyLen (trimmedJson t)

/-- Python `a or b or dflt` for a truthy literal default. -/
def strOrD (a b : Option String) (dflt : String) : String :=
  match truthyStr a with
  | some s => s
  | none =>
      match truthyStr b with
      | some s => s
      | none => dflt

/-- The phase-1 trim of one fetched result (lines 519-530). -/
def trimWithContent (r : SearchItem) : TrimmedItem :=
  let fc := r.full_content.getD ""
  .withContent
    (strOrD r.title r.name "未知")
    (strOrD r.url r.href "")
    (pyTake (strOrD r.snippet r.body "") 300)
    (r.content_type.getD "unknown")
    (if MAX_CONTENT_LENGTH < pyLen fc
     then pyTake fc MAX_CONTENT_LENGTH ++ truncationMarker
     else fc)

/-- The phase-2 trim of one unfetched result (lines 545-550). -/
def trimNoContent (r : SearchItem) : TrimmedItem :=
  .noContent
    (strOrD r.title r.name "未知")
    (strOrD r.url r.href "")
    (pyTake (strOrD r.snippet r.body "") 200)

/-- One budgeting pass (the loop at lines 518-541 resp. 544-557): trim
each item, stop before the first whose serialized size would push the
running total past `TARGET_TOTAL_CHARS`; returns the kept items and the
final total. -/
def budgetTake (mk : SearchItem → TrimmedItem) :
    List SearchItem → Nat → List TrimmedItem × Nat
  | [], total => ([], total)
  | r :: rest, total =>
      let t := mk r
      let c := itemChars t
      if TARGET_TOTAL_CHARS < total + c then ([], total)
      else
        let res := budgetTake mk rest (total + c)
        (t :: res.1, res.2)

/-- `trimmed_results` and `total_chars` as the Validator assembles them:
phase 1 over the results with fetched content, then phase 2 over the
rest, continuing from phase 1's running total. -/
def trimResults (rs : List SearchItem) : List TrimmedItem × Nat :=
  let withC := rs.filter (fun r => r.content_fetched)
  let withoutC := rs.filter (fun r => !r.content_fetched)
  let p1 := budgetTake trimWithContent withC 0
  let p2 := budgetTake trimNoContent withoutC p1.2
  (p1.1 ++ p2.1, p2.2)

/-- The per-item caps the claim states: phase-1 items carry a snippet of
at most 300 characters and content of at most `MAX_CONTENT_LENGTH` plus
the truncation marker; phase-2 items carry a snippet of at most 200
characters and no content. -/
def itemCapsOK : TrimmedItem → Prop
  | .withContent _ _ sn _ fc =>
      pyLen sn ≤ 300 ∧ pyLen fc ≤ MAX_CONTENT_LENGTH + pyLen truncationMarker
  | .noContent _ _ sn => pyLen sn ≤ 200

/-! ## Validator retry loop
(langgraph_team.py `validator_node`, lines 588-692)

The LLM is an oracle from the running conversation to the observable
outcome of one attempt, classified exactly as the `except` clauses of
the source classify it: a parsed validation document, a
`json.JSONDecodeError` (keeping the raw content, which the source
appends back to the conversation), a `ValueError` (the self-raised
empty-response error), or any other exception.  Message bodies other
than the ones the loop itself appends are not needed by the claims and
are carried opaquely. -/

/-- A LangChain message in the running conversation. -/
inductive Msg where
  | system (content : String)
  | human (content : String)
  | ai (content : String)
  deriving DecidableEq, Repr

/-- The standard disclaimer, lines 627-634 and 680-687. -/
structure Disclaimer where
  zh : String
  en : String
  deriving DecidableEq, Repr

/-- The parsed validation document, projected onto the fields
`validator_node` reads or writes.  Absent JSON keys are `none`. -/
structure RawValidation where
  validation_result : Option String := none
  summary : Option String := none
  verified_regulations : Option (List TrimmedItem) := none
  timeline : Option (List String) := none
  compliance_checklist : Option (List String) := none
  warnings : Option (List String) := none
  limitations : Option (List String) := none
  confidence_score : Option ℚ := none
  disclaimer : Option Disclaimer := none
  deriving DecidableEq, Repr

/-- The disclaimer text filled in when the key is missing. -/
def defaultDisclaimer : Disclaimer where
  zh := "本查詢結果僅供參考，不構成法律意見。法規內容可能隨時更新，請以各主管機關公告之最新版本為準。使用者應自行諮詢專業法律人員以確認適用性。"
  en := "This query result is for reference only and does not constitute legal advice. Regulatory content may be updated at any time. Please refer to the latest version published by the relevant authorities. Users should consult qualified legal professionals to confirm applicability."

/-- Lines 618-634: ensure `verified_regulations`, `timeline`,
`compliance_checklist` and `disclaimer` exist, defaulting as the source
does. -/
def fillDefaults (v : RawValidation) : RawValidation :=
  { v with
    verified_regulations := some (v.verified_regulations.getD [])
    timeline := some (v.timeline.getD [])
    compliance_checklist := some (v.compliance_checklist.getD [])
    disclaimer := some (v.disclaimer.getD defaultDisclaimer) }

/-- Observable outcome of one `llm.invoke` + parse attempt, classified
as the source's `except` clauses classify it. -/
inductive AttemptOutcome where
  | parsedOk (v : RawValidation)
  | parseFailed (content errMsg : String)
  | emptyOrValueError (errMsg : String)
  | otherExn (errMsg : String)
  deriving DecidableEq, Repr

/-- The outcomes after which the loop moves on to another attempt
(`except json.JSONDecodeError` and `except ValueError` both `continue`;
`except Exception` breaks). -/
def AttemptOutcome.retryable : AttemptOutcome → Bool
  | .parseFailed _ _ => true
  | .emptyOrValueError _ => true
  | _ => false

/-- `str(last_error)` for the attempt's outcome. -/
def AttemptOutcome.errMsgOf : AttemptOutcome → String
  | .parsedOk _ => ""
  | .parseFailed _ e => e
  | .emptyOrValueError e => e
  | .otherExn e => e

/-- The corrective follow-up user message of lines 652-654. -/
def correctiveMsg : Msg :=
  .human "上述回應無法解析為 JSON。請重新輸出，確保是有效的 JSON 格式（以 ```json 開頭，``` 結尾）。"

/-- What the loop appends to the conversation before the next attempt
(lines 650-654): the failed content plus the corrective message after a
parse failure, nothing otherwise. -/
def appendFor : AttemptOutcome → List Msg
  | .parseFailed c _ => [.ai c, correctiveMsg]
  | _ => []

/-- `MAX_RETRIES = 3` (line 589). -/
def MAX_RETRIES : Nat := 3

/-- The `for attempt in range(MAX_RETRIES)` loop, lines 592-668, with
`fuel` the number of attempts left (`attempt < MAX_RETRIES - 1` is
`fuel ≠ 1`).  Returns the trace of attempts (conversation seen, outcome)
and either the parsed document or the last error. -/
def runAttempts (oracle : List Msg → AttemptOutcome) :
    Nat → List Msg →
      List (List Msg × AttemptOutcome) × Except String RawValidation
  | 0, _ => ([], .error "")
  | fuel + 1, msgs =>
      match oracle msgs with
      | .parsedOk v => ([(msgs, .parsedOk v)], .ok v)
      | .otherExn e => ([(msgs, .otherExn e)], .error e)
      | .parseFailed c e =>
          if fuel = 0 then ([(msgs, .parseFailed c e)], .error e)
          else
            let res := runAttempts oracle fuel (msgs ++ [.ai c, correctiveMsg])
            ((msgs, .parseFailed c e) :: res.1, res.2)
      | .emptyOrValueError e =>
          if fuel = 0 then ([(msgs, .emptyOrValueError e)], .error e)
          else
            let res := runAttempts oracle fuel msgs
            ((msgs, .emptyOrValueError e) :: res.1, res.2)

/-- The degraded error shell of lines 671-688. -/
def errorShell (e : String) (trimmed : List TrimmedItem) : RawValidation where
  validation_result := some "error"
  summary := some ("驗證過程發生錯誤: " ++ e)
  verified_regulations := some trimmed
  timeline := some []
  compliance_checklist := some []
  warnings := some ["驗證錯誤: " ++ e]
  limitations := some ["無法完成完整驗證，已返回原始搜尋結果"]
  confidence_score := some (3/10)
  disclaimer := some defaultDisclaimer

/-- What `validator_node` leaves in the state: the validated document
and the status, plus the trace of LLM attempts for the statements about
retries. -/
structure VNodeResult where
  trace : List (List Msg × AttemptOutcome)
  validated : RawValidation
  status : String
  deriving DecidableEq, Repr

/-- `validator_node` after the budgeting phase: run the retry loop over
the initial conversation; on success store the default-filled document,
after all retries fail store the error shell over the trimmed results.
Either way the node terminates with `status="completed"` (the function
is total: every exception of the attempt is a classified outcome). -/
def validatorRun (oracle : List Msg → AttemptOutcome) (msgs0 : List Msg)
    (searchResults : List SearchItem) : VNodeResult :=
  let trimmed := (trimResults searchResults).1
  let res := runAttempts oracle MAX_RETRIES msgs0
  match res.2 with
  | .ok v => { trace := res.1, validated := fillDefaults v, status := "completed" }
  | .error e =>
      { trace := res.1, validated := errorShell e trimmed, status := "completed" }

/-! ## Planner JSON extraction
(langgraph_team.py `planner_node`, lines 148-174)

`json.loads` is an oracle from a string to an optional parsed analysis
(projected onto the fields the node reads). -/

/-- The planner analysis fields `planner_node` reads
(`analysis.get("clarification_needed", False)` and
`analysis.get("questions", [])`). -/
structure PAnalysis where
  clarification_needed : Bool := false
  questions : List String := []
  deriving DecidableEq, Repr

/-- `content.split("```json")[1].split("```")[0]` (line 154): the text
between the first ```json marker and the next ``` marker. -/
def fenceExtract (content : String) : String :=
  (pySplit ((pySplit content "```json").getD 1 "") "```").headD ""

/-- The Planner's parse (lines 153-157): the json-tagged fence content
when the marker occurs in the response, otherwise the bare content —
and nothing else; a parse failure propagates to the `except` clause. -/
def plannerParse (jsonParse : String → Option PAnalysis) (content : String) :
    Option PAnalysis :=
  if pyContains content "```json" then jsonParse (fenceExtract content)
  else jsonParse content

/-- The status `planner_node` ends with for a parse result: line 165-171
on success, `status="error"` when the parse raised. -/
def statusOf : Option PAnalysis → String
  | some a =>
      if a.clarification_needed then "needs_clarification" else "ready_to_search"
  | none => "error"

/-- The status the Planner leaves in the state for a raw LLM output. -/
def plannerStatus (jsonParse : String → Option PAnalysis) (content : String) :
    String :=
  statusOf (plannerParse jsonParse content)

/-- Modelled from the spec's words (§4.8, as quoted by the claim): try
the content of a ```json-tagged fence, otherwise the content of any
fenced code block, otherwise the bare content; only if all of these
fail is the result an error. -/
def plannerExtractClaimed (jsonParse : String → Option PAnalysis)
    (content : String) : Option PAnalysis :=
  match (if pyContains content "```json"
         then jsonParse (fenceExtract content) else none) with
  | some a => some a
  | none =>
      match (if pyContains content "```"
             then jsonParse ((pySplit content "```").getD 1 "") else none) with
      | some a => some a
      | none => jsonParse content

/-- A parse table consistent with `json.loads` on the inputs of the C7
counterexample: the fence body parses, a string that still carries the
backtick markers does not. -/
def jsonTableParse : String → Option PAnalysis :=
  fun s => if s = "\n\x7b\x7d\n" then some {} else none

/-! ## URL Guard (tools.py `_validate_url`, lines 114-163)

`urlparse` supplies the scheme and the hostname (`None` or `""` when
absent); `ipaddress.ip_address` with its four classification flags is an
oracle from the hostname string — `_validate_url` never resolves DNS and
never performs I/O (in the embedding it is a pure function of the parsed
URL and the classifier). -/

/-- The four `ipaddress` classification flags the guard reads. -/
structure IpFlags where
  is_private : Bool := false
  is_loopback : Bool := false
  is_reserved : Bool := false
  is_link_local : Bool := false
  deriving DecidableEq, Repr

/-- The parts of `urlparse(url)` the guard reads. -/
structure ParsedUrl where
  scheme : String
  hostname : Option String
  deriving DecidableEq, Repr

/-- `_validate_url`, translated check by check. -/
def validateUrl (ipc : String → Option IpFlags) (u : ParsedUrl) :
    Bool × String :=
  if ¬(u.scheme = "http" ∨ u.scheme = "https") then
    (false, "不支援的協議: " ++ u.scheme ++ "，僅支援 http/https")
  else
    match truthyStr u.hostname with
    | none => (false, "URL 缺少主機名稱")
    | some h =>
        let hostname := pyToLower h
        if hostname ∈ (["localhost", "127.0.0.1", "0.0.0.0", "::1"] : List String)
        then (false, "不允許存取本地網址")
        else
          match ipc hostname with
          | some ip =>
              if ip.is_private then (false, "不允許存取內部網路位址（私有 IP）")
              else if ip.is_loopback then (false, "不允許存取迴環位址")
              else if ip.is_reserved then (false, "不允許存取保留位址")
              else if ip.is_link_local then (false, "不允許存取鏈路本地位址")
              else (true, "")
          | none => (true, "")

/-- Modelled from the spec's words (§4.1, as quoted by the claim): the
guard fails exactly when the scheme is not http/https, the hostname is
empty, the hostname is literally localhost, 0.0.0.0 or ::1, or the
hostname parses as an IP that is private, loopback, reserved or
link-local. -/
def urlGuardSpecRejects (ipc : String → Option IpFlags) (u : ParsedUrl) :
    Bool :=
  decide (¬(u.scheme = "http" ∨ u.scheme = "https"))
  || match truthyStr u.hostname with
     | none => true
     | some h =>
         let l := pyToLower h
         decide (l = "localhost" ∨ l = "0.0.0.0" ∨ l = "::1")
         || match ipc l with
            | some ip =>
                ip.is_private || ip.is_loopback || ip.is_reserved
                  || ip.is_link_local
            | none => false

/-- One dotted-quad octet as `ipaddress` accepts it: decimal digits
only, no leading zero, at most 255. -/
def parseOctet (p : String) : Option Nat :=
  if p.data = [] then none
  else if ¬p.data.all Char.isDigit then none
  else if 1 < pyLen p ∧ p.data.headD '0' = '0' then none
  else
    let n := p.data.foldl (fun n c => n * 10 + (c.toNat - 48)) 0
    if n ≤ 255 then some n else none

/-- CPython's `IPv4Address.is_private` network list. -/
def ipv4Private (a b c d : Nat) : Bool :=
  a = 0 || a = 10 || a = 127
    || (a = 169 && b = 254)
    || (a = 172 && 16 ≤ b && b ≤ 31)
    || (a = 192 && b = 0 && c = 0 && d ≤ 7)
    || (a = 192 && b = 0 && c = 0 && (d = 170 || d = 171))
    || (a = 192 && b = 0 && c = 2)
    || (a = 192 && b = 168)
    || (a = 198 && (b = 18 || b = 19))
    || (a = 198 && b = 51 && c = 100)
    || (a = 203 && b = 0 && c = 113)
    || 240 ≤ a

/-- The IPv4 fragment of `ipaddress.ip_address` with its classification
flags (loopback 127/8, link-local 169.254/16, reserved 240/4, private
per CPython's list); non-IPv4 strings — including IPv6 literals — are
treated as hostnames by this concrete classifier (the guard theorem is
parametric in the classifier). -/
def ipClassify (host : String) : Option IpFlags :=
  match pySplit host "." with
  | [pa, pb, pc, pd] =>
      match parseOctet pa, parseOctet pb, parseOctet pc, parseOctet pd with
      | some a, some b, some c, some d =>
          some { is_private := ipv4Private a b c d
                 is_loopback := a = 127
                 is_reserved := 240 ≤ a
                 is_link_local := a = 169 && b = 254 }
      | _, _, _, _ => none
  | _ => none

end RegComp

namespace RegComp

theorem clamp01_nonneg (q : ℚ) : 0 ≤ clamp01 q :=
  le_max_left 0 _

theorem clamp01_le_one (q : ℚ) : clamp01 q ≤ 1 :=
  max_le (by norm_num) (min_le_left 1 q)

theorem clamp01_mono {a b : ℚ} (h : a ≤ b) : clamp01 a ≤ clamp01 b :=
  max_le_max le_rfl (min_le_min le_rfl h)

set_option maxHeartbeats 1600000 in
/-- C1. For every regulation record, the recomputed confidence equals the
spec formula (verified bonus, government-URL bonus, recency bonus,
found-count bonus, staleness and not-found penalties, clamped to [0,1]),
and the result always lies in [0, 1].  Determinism is immediate:
`calculate_confidence` is a pure function of the stored fields and `now`. -/
theorem confidence_matches_spec_formula (r : Regulation) (now : Int) :
    calculate_confidence r now = confidenceSpecFormula r now
    ∧ 0 ≤ calculate_confidence r now ∧ calculate_confidence r now ≤ 1 := by
  refine ⟨?_, clamp01_nonneg _, clamp01_le_one _⟩
  rw [calculate_confidence, confidenceSpecFormula]
  rcases truthyStr r.official_url with _ | u <;>
    rcases r.last_found_at with _ | lf <;>
      rcases r.is_verified <;>
        dsimp only <;> split_ifs <;> exact congrArg clamp01 (by ring)

theorem find?_append_of_none {α : Type} {p : α → Bool} {l₁ : List α}
    (h : l₁.find? p = none) (l₂ : List α) :
    (l₁ ++ l₂).find? p = l₂.find? p := by
  induction l₁ with
  | nil => rfl
  | cons x xs ih =>
      rcases hx : p x with _ | _
      · rw [List.find?_cons_of_neg _ (by simp [hx])] at h
        rw [List.cons_append, List.find?_cons_of_neg _ (by simp [hx])]
        exact ih h
      · rw [List.find?_cons_of_pos _ hx] at h
        exact absurd h (by simp)

theorem sameIdentity_mkRegulation (a : AddArgs) (n : Nat) :
    sameIdentity a.name a.country_code a.industry_code (mkRegulation a n) = true := by
  simp [sameIdentity, mkRegulation]

/-- C8. Baseline `add` is idempotent on the identity
`(name, country_code, industry_code)`: adding twice leaves the store
exactly as one add left it, the second call returns the same record the
first returned, and a fresh add leaves exactly one record with that
identity in the store. -/
theorem add_regulation_idempotent (store : List Regulation) (a : AddArgs) :
    (add_regulation (add_regulation store a).1 a).1 = (add_regulation store a).1
    ∧ (add_regulation (add_regulation store a).1 a).2 = (add_regulation store a).2
    ∧ (store.countP (sameIdentity a.name a.country_code a.industry_code) = 0 →
        (add_regulation store a).1.countP
          (sameIdentity a.name a.country_code a.industry_code) = 1) := by
  rcases h : store.find? (sameIdentity a.name a.country_code a.industry_code)
    with _ | ex
  · have hfind : ((store ++ [mkRegulation a (store.length + 1)]).find?
        (sameIdentity a.name a.country_code a.industry_code))
        = some (mkRegulation a (store.length + 1)) := by
      rw [find?_append_of_none h]
      rw [List.find?_cons_of_pos _ (sameIdentity_mkRegulation a _)]
    refine ⟨?_, ?_, ?_⟩
    · simp only [add_regulation, h, hfind]
    · simp only [add_regulation, h, hfind]
    · intro hc
      simp [add_regulation, h, List.countP_append, hc,
        List.countP_cons, sameIdentity_mkRegulation, List.countP_nil]
  · have hp := List.find?_some h
    have hmem := List.mem_of_find?_eq_some h
    refine ⟨?_, ?_, ?_⟩
    · simp only [add_regulation, h]
    · simp only [add_regulation, h]
    · intro hc
      rw [List.countP_eq_zero] at hc
      exact absurd hp (by simpa using hc ex hmem)

theorem dictGet_cons (pk : String) (pv : DVal) (rest : SummaryDoc)
    (k : String) :
    dictGet ((pk, pv) :: rest) k = if pk = k then some pv else dictGet rest k := by
  by_cases h : pk = k
  · simp [dictGet, List.find?_cons, h]
  · simp [dictGet, List.find?_cons, h]

theorem dictSet_cons (pk : String) (pv : DVal) (rest : SummaryDoc)
    (k : String) (v : DVal) :
    dictSet ((pk, pv) :: rest) k v
      = if pk = k then (pk, v) :: rest else (pk, pv) :: dictSet rest k v := by
  by_cases h : pk = k <;> simp [dictSet, h]

theorem dictGet_dictSet_self (d : SummaryDoc) (k : String) (v : DVal) :
    dictGet (dictSet d k v) k = some v := by
  induction d with
  | nil => simp [dictGet, dictSet, List.find?_cons]
  | cons p rest ih =>
      rcases p with ⟨pk, pv⟩
      by_cases h : pk = k
      · rw [dictSet_cons, if_pos h, dictGet_cons, if_pos h]
      · rw [dictSet_cons, if_neg h, dictGet_cons, if_neg h]
        exact ih

theorem dictGet_dictSet_ne (d : SummaryDoc) {k k' : String} (v : DVal)
    (h : k' ≠ k) : dictGet (dictSet d k v) k' = dictGet d k' := by
  induction d with
  | nil =>
      have hkk : (k == k') = false := beq_eq_false_iff_ne.mpr (Ne.symm h)
      simp [dictGet, dictSet, List.find?_cons, hkk]
  | cons p rest ih =>
      rcases p with ⟨pk, pv⟩
      by_cases hp : pk = k
      · subst hp
        rw [dictSet_cons, if_pos rfl, dictGet_cons, dictGet_cons,
          if_neg (fun hc => h hc.symm), if_neg (fun hc => h hc.symm)]
      · rw [dictSet_cons, if_neg hp, dictGet_cons, dictGet_cons]
        by_cases hp' : pk = k'
        · rw [if_pos hp', if_pos hp']
        · rw [if_neg hp', if_neg hp']
          exact ih

theorem dictNat_dictSet_ne (d : SummaryDoc) {k k' : String} (v : DVal)
    (h : k' ≠ k) : dictNat (dictSet d k v) k' = dictNat d k' := by
  simp [dictNat, dictGet_dictSet_ne d v h]

theorem dictGet_bump_ne (d : SummaryDoc) {k k' : String} (h : k' ≠ k) :
    dictGet (bump d k) k' = dictGet d k' :=
  dictGet_dictSet_ne d _ h

theorem dictNat_bump_self (d : SummaryDoc) (k : String) :
    dictNat (bump d k) k = dictNat d k + 1 := by
  simp [bump, dictNat, dictGet_dictSet_self]

theorem dictNat_bump_ne (d : SummaryDoc) {k k' : String} (h : k' ≠ k) :
    dictNat (bump d k) k' = dictNat d k' :=
  dictNat_dictSet_ne d _ h

theorem dictDetails_dictSet_ne (d : SummaryDoc) {k : String} (v : DVal)
    (h : k ≠ "details") : dictDetails (dictSet d k v) = dictDetails d := by
  simp [dictDetails, dictGet_dictSet_ne d v (fun hc => h hc.symm)]

theorem summaryKeyOf_cases (det : VerifyDetail) :
    summaryKeyOf det = "errors" ∨ summaryKeyOf det = "found"
    ∨ summaryKeyOf det = "not_found" := by
  unfold summaryKeyOf
  split_ifs <;> simp

theorem summaryKeyOf_ne_verified (det : VerifyDetail) :
    summaryKeyOf det ≠ "verified" := by
  rcases summaryKeyOf_cases det with h | h | h <;> rw [h] <;> decide

theorem summaryKeyOf_ne_details (det : VerifyDetail) :
    summaryKeyOf det ≠ "details" := by
  rcases summaryKeyOf_cases det with h | h | h <;> rw [h] <;> decide

theorem staleStep_eq (oracle : Regulation → SearchOutcome) (now : Int)
    (acc : SummaryDoc × List (Regulation × VerificationLog))
    (reg : Regulation) :
    staleStep oracle now acc reg
      = (stepDict acc.1 (verify_single reg (oracle reg) now).1,
         acc.2 ++ [(verify_single reg (oracle reg) now).2]) := by
  rfl

theorem stepDict_get_untouched (d : SummaryDoc) (det : VerifyDetail)
    {k : String} (h1 : k ≠ "errors") (h2 : k ≠ "found")
    (h3 : k ≠ "not_found") (h4 : k ≠ "verified") (h5 : k ≠ "details") :
    dictGet (stepDict d det) k = dictGet d k := by
  have hsk : k ≠ summaryKeyOf det := by
    rcases summaryKeyOf_cases det with h | h | h <;> rw [h] <;> assumption
  rw [stepDict, dictGet_bump_ne _ hsk, dictGet_bump_ne _ h4,
    dictGet_dictSet_ne _ _ h5]

theorem stepDict_verified (d : SummaryDoc) (det : VerifyDetail) :
    dictNat (stepDict d det) "verified" = dictNat d "verified" + 1 := by
  rw [stepDict,
    dictNat_bump_ne _ (fun hc => summaryKeyOf_ne_verified det hc.symm),
    dictNat_bump_self, dictNat_dictSet_ne _ _ (by decide)]

theorem stepDict_counter (d : SummaryDoc) (det : VerifyDetail) {k : String}
    (hk : k = "errors" ∨ k = "found" ∨ k = "not_found") :
    dictNat (stepDict d det) k
      = dictNat d k + (if summaryKeyOf det = k then 1 else 0) := by
  have hkv : k ≠ "verified" := by rcases hk with h | h | h <;> subst h <;> decide
  have hkd : k ≠ "details" := by rcases hk with h | h | h <;> subst h <;> decide
  by_cases hsk : summaryKeyOf det = k
  · rw [stepDict, hsk, dictNat_bump_self, if_pos rfl,
      dictNat_bump_ne _ hkv, dictNat_dictSet_ne _ _ hkd]
  · rw [stepDict, if_neg hsk, Nat.add_zero,
      dictNat_bump_ne _ (fun hc => hsk hc.symm),
      dictNat_bump_ne _ hkv, dictNat_dictSet_ne _ _ hkd]

theorem stepDict_details (d : SummaryDoc) (det : VerifyDetail) :
    dictDetails (stepDict d det) = dictDetails d ++ [det] := by
  rw [stepDict, bump, bump,
    dictDetails_dictSet_ne _ _ (summaryKeyOf_ne_details det),
    dictDetails_dictSet_ne _ _ (by decide)]
  simp [dictDetails, dictGet_dictSet_self]

/-- The whole-loop invariant of the `verify_stale` fold: counters grow by
the classification counts, the details list by the per-candidate
details, and the keys the loop never writes keep their initial values. -/
theorem staleLoop_invariant (oracle : Regulation → SearchOutcome) (now : Int)
    (l : List Regulation) (d0 : SummaryDoc)
    (u0 : List (Regulation × VerificationLog)) :
    dictGet (l.foldl (staleStep oracle now) (d0, u0)).1 "total"
        = dictGet d0 "total"
    ∧ dictGet (l.foldl (staleStep oracle now) (d0, u0)).1 "timestamp"
        = dictGet d0 "timestamp"
    ∧ dictGet (l.foldl (staleStep oracle now) (d0, u0)).1 "by_country"
        = dictGet d0 "by_country"
    ∧ dictNat (l.foldl (staleStep oracle now) (d0, u0)).1 "verified"
        = dictNat d0 "verified" + l.length
    ∧ dictNat (l.foldl (staleStep oracle now) (d0, u0)).1 "found"
        = dictNat d0 "found"
          + (l.map (fun r => (verify_single r (oracle r) now).1)).countP
              (fun det => summaryKeyOf det == "found")
    ∧ dictNat (l.foldl (staleStep oracle now) (d0, u0)).1 "not_found"
        = dictNat d0 "not_found"
          + (l.map (fun r => (verify_single r (oracle r) now).1)).countP
              (fun det => summaryKeyOf det == "not_found")
    ∧ dictNat (l.foldl (staleStep oracle now) (d0, u0)).1 "errors"
        = dictNat d0 "errors"
          + (l.map (fun r => (verify_single r (oracle r) now).1)).countP
              (fun det => summaryKeyOf det == "errors")
    ∧ dictDetails (l.foldl (staleStep oracle now) (d0, u0)).1
        = dictDetails d0 ++ l.map (fun r => (verify_single r (oracle r) now).1)
    ∧ (l.foldl (staleStep oracle now) (d0, u0)).2
        = u0 ++ l.map (fun r => (verify_single r (oracle r) now).2) := by
  induction l generalizing d0 u0 with
  | nil => simp
  | cons reg rest ih =>
      have hfold : (reg :: rest).foldl (staleStep oracle now) (d0, u0)
          = rest.foldl (staleStep oracle now)
              (stepDict d0 (verify_single reg (oracle reg) now).1,
               u0 ++ [(verify_single reg (oracle reg) now).2]) := by
        rw [List.foldl_cons, staleStep_eq]
      set det := (verify_single reg (oracle reg) now).1 with hdet
      obtain ⟨i1, i2, i3, i4, i5, i6, i7, i8, i9⟩ :=
        ih (stepDict d0 det) (u0 ++ [(verify_single reg (oracle reg) now).2])
      rw [hfold]
      refine ⟨?_, ?_, ?_, ?_, ?_, ?_, ?_, ?_, ?_⟩
      · rw [i1, stepDict_get_untouched] <;> decide
      · rw [i2, stepDict_get_untouched] <;> decide
      · rw [i3, stepDict_get_untouched] <;> decide
      · rw [i4, stepDict_verified]
        simp only [List.length_cons]
        omega
      · rw [i5, stepDict_counter d0 det (Or.inr (Or.inl rfl))]
        simp only [List.map_cons, List.countP_cons, beq_iff_eq]
        split_ifs <;> omega
      · rw [i6, stepDict_counter d0 det (Or.inr (Or.inr rfl))]
        simp only [List.map_cons, List.countP_cons, beq_iff_eq]
        split_ifs <;> omega
      · rw [i7, stepDict_counter d0 det (Or.inl rfl)]
        simp only [List.map_cons, List.countP_cons, beq_iff_eq]
        split_ifs <;> omega
      · rw [i8, stepDict_details]
        simp
      · rw [i9]
        simp

theorem numAt_dictSet_ne {d : SummaryDoc} {k k' : String} (v : DVal)
    (h : k ≠ k') (hn : numAt d k) : numAt (dictSet d k' v) k := by
  unfold numAt
  rw [dictGet_dictSet_ne _ _ h, dictNat_dictSet_ne _ _ h]
  exact hn

theorem numAt_bump_self (d : SummaryDoc) (k : String) :
    numAt (bump d k) k := by
  unfold numAt
  rw [dictNat_bump_self]
  simp [bump, dictGet_dictSet_self]

theorem numAt_bump_ne {d : SummaryDoc} {k k' : String}
    (h : k ≠ k') (hn : numAt d k) : numAt (bump d k') k :=
  numAt_dictSet_ne _ h hn

theorem numAt_stepDict (d : SummaryDoc) (det : VerifyDetail) {k : String}
    (hk : k = "verified" ∨ k = "errors" ∨ k = "found" ∨ k = "not_found")
    (h : numAt d k) : numAt (stepDict d det) k := by
  by_cases hsk : k = summaryKeyOf det
  · rw [stepDict, hsk]
    exact numAt_bump_self _ _
  · by_cases hv : k = "verified"
    · subst hv
      exact numAt_bump_ne hsk (numAt_bump_self _ _)
    · have hd : k ≠ "details" := by
        rcases hk with h' | h' | h' | h' <;> subst h' <;> decide
      exact numAt_bump_ne hsk (numAt_bump_ne hv (numAt_dictSet_ne _ hd h))

theorem numAt_staleLoop (oracle : Regulation → SearchOutcome) (now : Int)
    (l : List Regulation) (d0 : SummaryDoc)
    (u0 : List (Regulation × VerificationLog)) {k : String}
    (hk : k = "verified" ∨ k = "errors" ∨ k = "found" ∨ k = "not_found")
    (h : numAt d0 k) :
    numAt (l.foldl (staleStep oracle now) (d0, u0)).1 k := by
  induction l generalizing d0 u0 with
  | nil => exact h
  | cons reg rest ih =>
      rw [List.foldl_cons, staleStep_eq]
      exact ih _ _ (numAt_stepDict _ _ hk h)

theorem scheduled_run_eq_foldl (db : List Regulation)
    (oracle : Regulation → SearchOutcome) (now : Int)
    (days_threshold max_count : Nat) (ts : String) :
    verify_stale db oracle now days_threshold max_count ts
      = (staleCandidates db now days_threshold max_count).foldl
          (staleStep oracle now)
          ([("total", .num (staleCandidates db now days_threshold max_count).length),
            ("verified", .num 0), ("found", .num 0), ("not_found", .num 0),
            ("errors", .num 0), ("details", .arr []), ("timestamp", .str ts)],
           []) := by
  rfl

/-- C9 (amended). The scheduled verifier's summary carries the total,
`verified`, `found`, `not_found` and `errors` counts of the verified
candidates, the per-candidate details and the timestamp — but no
per-country breakdown (`by_country` is absent; only `verify_batch`
builds one). -/
theorem verify_stale_summary_contents (db : List Regulation)
    (oracle : Regulation → SearchOutcome) (now : Int)
    (days_threshold max_count : Nat) (ts : String) :
    dictGet (verify_stale db oracle now days_threshold max_count ts).1 "total"
      = some (.num (staleCandidates db now days_threshold max_count).length)
    ∧ dictGet (verify_stale db oracle now days_threshold max_count ts).1 "verified"
      = some (.num (staleCandidates db now days_threshold max_count).length)
    ∧ dictGet (verify_stale db oracle now days_threshold max_count ts).1 "found"
      = some (.num (((staleCandidates db now days_threshold max_count).map
          (fun r => (verify_single r (oracle r) now).1)).countP
            (fun det => summaryKeyOf det == "found")))
    ∧ dictGet (verify_stale db oracle now days_threshold max_count ts).1 "not_found"
      = some (.num (((staleCandidates db now days_threshold max_count).map
          (fun r => (verify_single r (oracle r) now).1)).countP
            (fun det => summaryKeyOf det == "not_found")))
    ∧ dictGet (verify_stale db oracle now days_threshold max_count ts).1 "errors"
      = some (.num (((staleCandidates db now days_threshold max_count).map
          (fun r => (verify_single r (oracle r) now).1)).countP
            (fun det => summaryKeyOf det == "errors")))
    ∧ dictDetails (verify_stale db oracle now days_threshold max_count ts).1
      = (staleCandidates db now days_threshold max_count).map
          (fun r => (verify_single r (oracle r) now).1)
    ∧ dictGet (verify_stale db oracle now days_threshold max_count ts).1 "timestamp"
      = some (.str ts)
    ∧ dictGet (verify_stale db oracle now days_threshold max_count ts).1 "by_country"
      = none := by
  rw [scheduled_run_eq_foldl]
  set cands := staleCandidates db now days_threshold max_count with hcands
  set init : SummaryDoc :=
    [("total", .num cands.length), ("verified", .num 0), ("found", .num 0),
     ("not_found", .num 0), ("errors", .num 0), ("details", .arr []),
     ("timestamp", .str ts)] with hinit
  obtain ⟨i1, i2, i3, i4, i5, i6, i7, i8, _⟩ :=
    staleLoop_invariant oracle now cands init []
  have hnum : ∀ k : String,
      k = "verified" ∨ k = "errors" ∨ k = "found" ∨ k = "not_found" →
      numAt init k → numAt (cands.foldl (staleStep oracle now) (init, [])).1 k :=
    fun k hk h => numAt_staleLoop oracle now cands init [] hk h
  have hver := hnum "verified" (Or.inl rfl) rfl
  have hfo := hnum "found" (Or.inr (Or.inr (Or.inl rfl))) rfl
  have hnf := hnum "not_found" (Or.inr (Or.inr (Or.inr rfl))) rfl
  have herr := hnum "errors" (Or.inr (Or.inl rfl)) rfl
  refine ⟨?_, ?_, ?_, ?_, ?_, ?_, ?_, ?_⟩
  · rw [i1]; rfl
  · rw [hver, i4]
    have h0 : dictNat init "verified" = 0 := rfl
    rw [h0, Nat.zero_add]
  · rw [hfo, i5]
    have h0 : dictNat init "found" = 0 := rfl
    rw [h0, Nat.zero_add]
  · rw [hnf, i6]
    have h0 : dictNat init "not_found" = 0 := rfl
    rw [h0, Nat.zero_add]
  · rw [herr, i7]
    have h0 : dictNat init "errors" = 0 := rfl
    rw [h0, Nat.zero_add]
  · rw [i8]
    have h0 : dictDetails init = [] := rfl
    rw [h0, List.nil_append]
  · rw [i2]; rfl
  · rw [i3]; rfl

/-- C9 counterexample. A concrete scheduled run: the candidate is
verified and counted, yet the returned summary holds no `by_country`
key — the per-country breakdown the claim asserts is absent. -/
theorem scheduled_summary_has_no_by_country :
    dictGet (run_scheduled_verification [regSample] oracleFound 0
      "2026-01-01T00:00:00").1 "by_country" = none
    ∧ dictGet (run_scheduled_verification [regSample] oracleFound 0
        "2026-01-01T00:00:00").1 "total" = some (.num 1)
    ∧ dictNat (run_scheduled_verification [regSample] oracleFound 0
        "2026-01-01T00:00:00").1 "found" = 1 := by
  decide

theorem calc_conf_notfound_succ_le (r : Regulation) (now t : Int) :
    calculate_confidence
      { r with not_found_count := some (r.not_found_count.getD 0 + 1),
               last_verified_at := some t } now
      ≤ calculate_confidence r now := by
  unfold calculate_confidence
  dsimp only [Option.getD_some]
  by_cases h : 3 ≤ r.not_found_count.getD 0
  · have h' : 3 ≤ r.not_found_count.getD 0 + 1 := by omega
    rw [if_pos h, if_pos h']
  · by_cases h2 : 3 ≤ r.not_found_count.getD 0 + 1
    · rw [if_pos h2, if_neg h]
      exact clamp01_mono (by linarith)
    · rw [if_neg h2, if_neg h]

/-- C10. A provider failure (exception or `status="error"`) during
verification still drives `record_verification` with `was_found=False`:
the not-found counter is bumped, `last_verified_at` is stamped, the
confidence is recomputed (never upward), and a log row is produced —
while the batch summary classifies the candidate under `errors`. -/
theorem verify_single_provider_failure (reg : Regulation)
    (outcome : SearchOutcome) (now : Int) (h : outcome.isErr = true) :
    (verify_single reg outcome now).1.was_found = false
    ∧ (verify_single reg outcome now).1.error.isSome = true
    ∧ summaryKeyOf (verify_single reg outcome now).1 = "errors"
    ∧ (verify_single reg outcome now).2.1.not_found_count
        = some (reg.not_found_count.getD 0 + 1)
    ∧ (verify_single reg outcome now).2.1.found_count = reg.found_count
    ∧ (verify_single reg outcome now).2.1.last_found_at = reg.last_found_at
    ∧ (verify_single reg outcome now).2.1.last_verified_at = some now
    ∧ (verify_single reg outcome now).2.1.confidence_score
        = calculate_confidence (verify_single reg outcome now).2.1 now
    ∧ (verify_single reg outcome now).2.2.was_found = false
    ∧ (verify_single reg outcome now).2.2.regulation_id = reg.id
    ∧ (verify_single reg outcome now).2.2.old_confidence = reg.confidence_score
    ∧ (verify_single reg outcome now).2.2.new_confidence
        = (verify_single reg outcome now).2.1.confidence_score
    ∧ (verify_single reg outcome now).2.1.confidence_score
        ≤ calculate_confidence reg now := by
  rcases outcome with res | e | e
  · exact absurd h (by simp [SearchOutcome.isErr])
  · exact ⟨rfl, rfl, rfl, rfl, rfl, rfl, rfl, rfl, rfl, rfl, rfl, rfl,
      calc_conf_notfound_succ_le reg now now⟩
  · exact ⟨rfl, rfl, rfl, rfl, rfl, rfl, rfl, rfl, rfl, rfl, rfl, rfl,
      calc_conf_notfound_succ_le reg now now⟩

/-- C10 witness: the theorem evaluated at a concrete regulation and a
concrete provider error. -/
theorem verify_single_provider_failure_witness :
    (verify_single regSample (SearchOutcome.failed "rate limited") 0).1.was_found
      = false
    ∧ (verify_single regSample (SearchOutcome.failed "rate limited") 0).2.1.not_found_count
      = some 1 := by
  have h := verify_single_provider_failure regSample
    (SearchOutcome.failed "rate limited") 0 rfl
  exact ⟨h.1, h.2.2.2.1⟩

theorem dedupAux_cons_none {i : SearchItem} (hcu : canonicalUrl i = none)
    (seen : List String) (rest : List SearchItem) :
    dedupAux seen (i :: rest) = i :: dedupAux seen rest := by
  rw [dedupAux, hcu]

theorem dedupAux_cons_mem {i : SearchItem} {u : String} {seen : List String}
    (hcu : canonicalUrl i = some u) (hu : u ∈ seen)
    (rest : List SearchItem) :
    dedupAux seen (i :: rest) = dedupAux seen rest := by
  rw [dedupAux, hcu]
  dsimp only
  rw [if_pos hu]

theorem dedupAux_cons_new {i : SearchItem} {u : String} {seen : List String}
    (hcu : canonicalUrl i = some u) (hu : u ∉ seen)
    (rest : List SearchItem) :
    dedupAux seen (i :: rest) = i :: dedupAux (u :: seen) rest := by
  rw [dedupAux, hcu]
  dsimp only
  rw [if_neg hu]

theorem dedupAux_sublist (seen : List String) (l : List SearchItem) :
    (dedupAux seen l).Sublist l := by
  induction l generalizing seen with
  | nil => simp [dedupAux]
  | cons i rest ih =>
      rcases hcu : canonicalUrl i with _ | u
      · rw [dedupAux_cons_none hcu]
        exact (ih seen).cons₂ i
      · by_cases hu : u ∈ seen
        · rw [dedupAux_cons_mem hcu hu]
          exact (ih seen).cons i
        · rw [dedupAux_cons_new hcu hu]
          exact (ih (u :: seen)).cons₂ i

theorem dedupAux_urls_nodup (seen : List String) (l : List SearchItem) :
    ((dedupAux seen l).filterMap canonicalUrl).Nodup
    ∧ ∀ u ∈ (dedupAux seen l).filterMap canonicalUrl, u ∉ seen := by
  induction l generalizing seen with
  | nil => simp [dedupAux]
  | cons i rest ih =>
      rcases hcu : canonicalUrl i with _ | u
      · rw [dedupAux_cons_none hcu, List.filterMap_cons_none hcu]
        exact ih seen
      · by_cases hu : u ∈ seen
        · rw [dedupAux_cons_mem hcu hu]
          exact ih seen
        · rw [dedupAux_cons_new hcu hu, List.filterMap_cons_some hcu]
          obtain ⟨ihn, ihm⟩ := ih (u :: seen)
          refine ⟨List.nodup_cons.mpr ⟨fun hmem => ?_, ihn⟩, ?_⟩
          · exact (ihm u hmem) (List.mem_cons_self u seen)
          · intro v hv
            rcases List.mem_cons.mp hv with h | h
            · subst h; exact hu
            · exact fun hs => (ihm v h) (List.mem_cons_of_mem u hs)

theorem dedupAux_no_url_filter (seen : List String) (l : List SearchItem) :
    (dedupAux seen l).filter (fun i => (canonicalUrl i).isNone)
      = l.filter (fun i => (canonicalUrl i).isNone) := by
  induction l generalizing seen with
  | nil => simp [dedupAux]
  | cons i rest ih =>
      rcases hcu : canonicalUrl i with _ | u
      · rw [dedupAux_cons_none hcu]
        simp [List.filter_cons, hcu, ih seen]
      · by_cases hu : u ∈ seen
        · rw [dedupAux_cons_mem hcu hu]
          simp [List.filter_cons, hcu, ih seen]
        · rw [dedupAux_cons_new hcu hu]
          simp [List.filter_cons, hcu, ih (u :: seen)]

theorem dedupAux_first_kept (seen : List String) (l : List SearchItem)
    (u : String) :
    (dedupAux seen l).filter (fun i => canonicalUrl i == some u)
      = if u ∈ seen then []
        else (l.find? (fun i => canonicalUrl i == some u)).toList := by
  induction l generalizing seen with
  | nil => by_cases hu : u ∈ seen <;> simp [dedupAux, hu]
  | cons i rest ih =>
      rcases hcu : canonicalUrl i with _ | v
      · rw [dedupAux_cons_none hcu]
        rw [List.filter_cons, List.find?_cons]
        simp only [hcu]
        by_cases hu : u ∈ seen <;> simp [hu, ih seen]
      · by_cases hvu : v = u
        · subst hvu
          by_cases hu : v ∈ seen
          · rw [dedupAux_cons_mem hcu hu, ih seen, if_pos hu, if_pos hu]
          · rw [dedupAux_cons_new hcu hu]
            rw [List.filter_cons, List.find?_cons]
            simp only [hcu, beq_self_eq_true, if_pos]
            rw [ih (v :: seen), if_pos (List.mem_cons_self v seen),
              if_neg hu]
            rfl
        · have huv : ¬u = v := fun hc => hvu hc.symm
          have hbe : (v == u) = false := beq_eq_false_iff_ne.mpr hvu
          have hmc : (u ∈ v :: seen) ↔ (u ∈ seen) := by
            constructor
            · intro hc
              rcases List.mem_cons.mp hc with h | h
              · exact absurd h.symm hvu
              · exact h
            · exact List.mem_cons_of_mem v
          by_cases hv : v ∈ seen
          · rw [dedupAux_cons_mem hcu hv, ih seen, List.find?_cons]
            simp [hcu, hbe]
          · rw [dedupAux_cons_new hcu hv]
            rw [List.filter_cons, List.find?_cons]
            simp only [hcu]
            rw [ih (v :: seen)]
            by_cases hu : u ∈ seen
            · simp [hbe, huv, if_pos (hmc.mpr hu), hu]
            · simp [hbe, huv, if_neg (fun hc => hu (hmc.mp hc)), hu]

/-- C5. After the Researcher dedup: the kept list is a subsequence of
the findings (first occurrences, in order), no two kept items share a
canonical URL, items without a canonical URL all pass through unchanged,
and for every URL the kept occurrences are exactly the first finding
with that URL. -/
theorem researcher_dedup_properties (l : List SearchItem) :
    (dedupFindings l).Sublist l
    ∧ ((dedupFindings l).filterMap canonicalUrl).Nodup
    ∧ (dedupFindings l).filter (fun i => (canonicalUrl i).isNone)
        = l.filter (fun i => (canonicalUrl i).isNone)
    ∧ ∀ u : String,
        (dedupFindings l).filter (fun i => canonicalUrl i == some u)
          = (l.find? (fun i => canonicalUrl i == some u)).toList := by
  refine ⟨dedupAux_sublist [] l, (dedupAux_urls_nodup [] l).1,
    dedupAux_no_url_filter [] l, fun u => ?_⟩
  rw [dedupFindings, dedupAux_first_kept [] l u, if_neg (List.not_mem_nil u)]

theorem pyLen_pyTake (s : String) (n : Nat) : pyLen (pyTake s n) ≤ n := by
  rw [pyLen, pyTake]
  exact (List.length_take n s.data).trans_le (min_le_left n _)

theorem pyLen_append (a b : String) : pyLen (a ++ b) = pyLen a + pyLen b := by
  show (a ++ b).length = a.length + b.length
  exact String.length_append a b

theorem caps_trimWithContent (r : SearchItem) :
    itemCapsOK (trimWithContent r) := by
  rw [trimWithContent]
  refine ⟨pyLen_pyTake _ _, ?_⟩
  by_cases h : MAX_CONTENT_LENGTH < pyLen (r.full_content.getD "")
  · rw [if_pos h, pyLen_append]
    exact Nat.add_le_add_right (pyLen_pyTake _ _) _
  · rw [if_neg h]
    exact le_trans (Nat.le_of_not_lt h) (Nat.le_add_right _ _)

theorem caps_trimNoContent (r : SearchItem) :
    itemCapsOK (trimNoContent r) :=
  pyLen_pyTake _ _

theorem budgetTake_total (mk : SearchItem → TrimmedItem)
    (l : List SearchItem) (total : Nat) :
    (budgetTake mk l total).2
      = total + ((budgetTake mk l total).1.map itemChars).sum := by
  induction l generalizing total with
  | nil => simp [budgetTake]
  | cons r rest ih =>
      rw [budgetTake]
      by_cases h : TARGET_TOTAL_CHARS < total + itemChars (mk r)
      · rw [if_pos h]; simp
      · rw [if_neg h]
        dsimp only
        rw [ih (total + itemChars (mk r))]
        simp only [List.map_cons, List.sum_cons]
        omega

theorem budgetTake_le (mk : SearchItem → TrimmedItem)
    (l : List SearchItem) (total : Nat)
    (h : total ≤ TARGET_TOTAL_CHARS) :
    (budgetTake mk l total).2 ≤ TARGET_TOTAL_CHARS := by
  induction l generalizing total with
  | nil => exact h
  | cons r rest ih =>
      rw [budgetTake]
      by_cases hb : TARGET_TOTAL_CHARS < total + itemChars (mk r)
      · rw [if_pos hb]; exact h
      · rw [if_neg hb]
        exact ih _ (Nat.le_of_not_lt hb)

theorem budgetTake_mem (mk : SearchItem → TrimmedItem)
    (l : List SearchItem) (total : Nat) (t : TrimmedItem)
    (ht : t ∈ (budgetTake mk l total).1) : ∃ r ∈ l, t = mk r := by
  induction l generalizing total with
  | nil => simp [budgetTake] at ht
  | cons r rest ih =>
      rw [budgetTake] at ht
      by_cases hb : TARGET_TOTAL_CHARS < total + itemChars (mk r)
      · rw [if_pos hb] at ht
        simp at ht
      · rw [if_neg hb] at ht
        dsimp only at ht
        rcases List.mem_cons.mp ht with h | h
        · exact ⟨r, List.mem_cons_self r rest, h⟩
        · obtain ⟨r', hr', ht'⟩ := ih _ h
          exact ⟨r', List.mem_cons_of_mem r hr', ht'⟩

/-- C6. The Validator's serialized prompt body respects the budget: the
summed serialized size of the trimmed items (the exact quantity the code
accumulates in `total_chars`) never exceeds `TARGET_TOTAL_CHARS`, the
running total equals that sum, and every kept item respects the
per-item caps (snippet ≤ 300 and content ≤ `MAX_CONTENT_LENGTH` plus
marker for fetched items added first; snippet ≤ 200 and no content for
the unfetched items added after). -/
theorem validator_budget_bound (rs : List SearchItem) :
    ((trimResults rs).1.map itemChars).sum ≤ TARGET_TOTAL_CHARS
    ∧ (trimResults rs).2 = ((trimResults rs).1.map itemChars).sum
    ∧ ∀ t ∈ (trimResults rs).1, itemCapsOK t := by
  have h1 := budgetTake_total trimWithContent
    (rs.filter (fun r => r.content_fetched)) 0
  have h2 := budgetTake_total trimNoContent
    (rs.filter (fun r => !r.content_fetched))
    (budgetTake trimWithContent (rs.filter (fun r => r.content_fetched)) 0).2
  have hle1 := budgetTake_le trimWithContent
    (rs.filter (fun r => r.content_fetched)) 0 (by rw [TARGET_TOTAL_CHARS]; omega)
  have hle2 := budgetTake_le trimNoContent
    (rs.filter (fun r => !r.content_fetched))
    (budgetTake trimWithContent (rs.filter (fun r => r.content_fetched)) 0).2
    hle1
  have hsum : (trimResults rs).2 = ((trimResults rs).1.map itemChars).sum := by
    rw [trimResults]
    dsimp only
    rw [List.map_append, List.sum_append]
    omega
  refine ⟨?_, hsum, ?_⟩
  · rw [← hsum]
    exact hle2
  · intro t ht
    rw [trimResults] at ht
    dsimp only at ht
    rcases List.mem_append.mp ht with h | h
    · obtain ⟨r, _, hr⟩ := budgetTake_mem _ _ _ _ h
      rw [hr]
      exact caps_trimWithContent r
    · obtain ⟨r, _, hr⟩ := budgetTake_mem _ _ _ _ h
      rw [hr]
      exact caps_trimNoContent r

theorem runAttempts_zero (oracle : List Msg → AttemptOutcome)
    (msgs : List Msg) : runAttempts oracle 0 msgs = ([], .error "") := rfl

theorem runAttempts_succ_parsedOk {oracle : List Msg → AttemptOutcome}
    {msgs : List Msg} {v : RawValidation} (fuel : Nat)
    (h : oracle msgs = .parsedOk v) :
    runAttempts oracle (fuel + 1) msgs = ([(msgs, .parsedOk v)], .ok v) := by
  rw [runAttempts, h]

theorem runAttempts_succ_otherExn {oracle : List Msg → AttemptOutcome}
    {msgs : List Msg} {e : String} (fuel : Nat)
    (h : oracle msgs = .otherExn e) :
    runAttempts oracle (fuel + 1) msgs = ([(msgs, .otherExn e)], .error e) := by
  rw [runAttempts, h]

theorem runAttempts_one_parseFailed {oracle : List Msg → AttemptOutcome}
    {msgs : List Msg} {c e : String}
    (h : oracle msgs = .parseFailed c e) :
    runAttempts oracle 1 msgs = ([(msgs, .parseFailed c e)], .error e) := by
  rw [runAttempts, h]
  simp

theorem runAttempts_succ2_parseFailed {oracle : List Msg → AttemptOutcome}
    {msgs : List Msg} {c e : String} (fuel : Nat)
    (h : oracle msgs = .parseFailed c e) :
    runAttempts oracle (fuel + 2) msgs
      = ((msgs, .parseFailed c e)
          :: (runAttempts oracle (fuel + 1) (msgs ++ [.ai c, correctiveMsg])).1,
         (runAttempts oracle (fuel + 1) (msgs ++ [.ai c, correctiveMsg])).2) := by
  rw [runAttempts, h]
  simp

theorem runAttempts_one_empty {oracle : List Msg → AttemptOutcome}
    {msgs : List Msg} {e : String}
    (h : oracle msgs = .emptyOrValueError e) :
    runAttempts oracle 1 msgs = ([(msgs, .emptyOrValueError e)], .error e) := by
  rw [runAttempts, h]
  simp

theorem runAttempts_succ2_empty {oracle : List Msg → AttemptOutcome}
    {msgs : List Msg} {e : String} (fuel : Nat)
    (h : oracle msgs = .emptyOrValueError e) :
    runAttempts oracle (fuel + 2) msgs
      = ((msgs, .emptyOrValueError e) :: (runAttempts oracle (fuel + 1) msgs).1,
         (runAttempts oracle (fuel + 1) msgs).2) := by
  rw [runAttempts, h]
  simp

/-- Structure of the retry loop, by induction on the remaining fuel:
the trace is non-empty and bounded by the fuel, it starts with the
current conversation and outcome, only retryable outcomes (empty
response or parse failure) are followed by another attempt, each next
attempt's conversation extends the previous one by exactly what the
source appends, and a run whose last outcome is retryable used up all
its fuel. -/
theorem runAttempts_props (oracle : List Msg → AttemptOutcome) :
    ∀ fuel msgs, 1 ≤ fuel →
    1 ≤ (runAttempts oracle fuel msgs).1.length
    ∧ (runAttempts oracle fuel msgs).1.length ≤ fuel
    ∧ (runAttempts oracle fuel msgs).1.head? = some (msgs, oracle msgs)
    ∧ (∀ p ∈ (runAttempts oracle fuel msgs).1.dropLast, p.2.retryable = true)
    ∧ (runAttempts oracle fuel msgs).1.Chain'
        (fun p q => q.1 = p.1 ++ appendFor p.2)
    ∧ (∀ p, (runAttempts oracle fuel msgs).1.getLast? = some p →
        p.2.retryable = true → (runAttempts oracle fuel msgs).1.length = fuel) := by
  intro fuel
  induction fuel with
  | zero => intro msgs h; cases h
  | succ n ih =>
      intro msgs _
      rcases ho : oracle msgs with v | ⟨c, e⟩ | e | e
      · rw [runAttempts_succ_parsedOk n ho]
        refine ⟨by simp, by simp, by simp [ho], by simp, by simp, ?_⟩
        intro p hp hr
        simp at hp
        rw [← hp] at hr
        simp [AttemptOutcome.retryable] at hr
      · rcases n with _ | m
        · rw [runAttempts_one_parseFailed ho]
          refine ⟨by simp, by simp, by simp [ho], by simp, by simp, ?_⟩
          intro p hp hr
          simp
        · rw [runAttempts_succ2_parseFailed m ho]
          obtain ⟨j1, j2, j3, j4, j5, j6⟩ :=
            ih (msgs ++ [.ai c, correctiveMsg]) (by omega)
          set T := (runAttempts oracle (m + 1) (msgs ++ [.ai c, correctiveMsg])).1
            with hT
          refine ⟨by simp, by simpa using Nat.succ_le_succ j2, by simp [ho], ?_, ?_, ?_⟩
          · intro p hp
            rcases T with _ | ⟨q, T2⟩
            · simp at j1
            · rw [List.dropLast_cons_of_ne_nil (by simp)] at hp
              rcases List.mem_cons.mp hp with h | h
              · rw [h]; rfl
              · exact j4 p h
          · rw [List.chain'_cons']
            refine ⟨?_, j5⟩
            intro q hq
            rw [j3] at hq
            cases hq
            simp [appendFor]
          · intro p hp hr
            rcases T with _ | ⟨q, T2⟩
            · simp at j1
            · rw [List.getLast?_cons_cons] at hp
              have := j6 p hp hr
              simp only [List.length_cons] at this ⊢
              omega
      · rcases n with _ | m
        · rw [runAttempts_one_empty ho]
          refine ⟨by simp, by simp, by simp [ho], by simp, by simp, ?_⟩
          intro p hp hr
          simp
        · rw [runAttempts_succ2_empty m ho]
          obtain ⟨j1, j2, j3, j4, j5, j6⟩ := ih msgs (by omega)
          set T := (runAttempts oracle (m + 1) msgs).1 with hT
          refine ⟨by simp, by simpa using Nat.succ_le_succ j2, by simp [ho], ?_, ?_, ?_⟩
          · intro p hp
            rcases T with _ | ⟨q, T2⟩
            · simp at j1
            · rw [List.dropLast_cons_of_ne_nil (by simp)] at hp
              rcases List.mem_cons.mp hp with h | h
              · rw [h]; rfl
              · exact j4 p h
          · rw [List.chain'_cons']
            refine ⟨?_, j5⟩
            intro q hq
            rw [j3] at hq
            cases hq
            simp [appendFor]
          · intro p hp hr
            rcases T with _ | ⟨q, T2⟩
            · simp at j1
            · rw [List.getLast?_cons_cons] at hp
              have := j6 p hp hr
              simp only [List.length_cons] at this ⊢
              omega
      · rw [runAttempts_succ_otherExn n ho]
        refine ⟨by simp, by simp, by simp [ho], by simp, by simp, ?_⟩
        intro p hp hr
        simp at hp
        rw [← hp] at hr
        simp [AttemptOutcome.retryable] at hr

theorem validatorRun_trace (oracle : List Msg → AttemptOutcome)
    (msgs0 : List Msg) (rs : List SearchItem) :
    (validatorRun oracle msgs0 rs).trace
      = (runAttempts oracle MAX_RETRIES msgs0).1 := by
  rcases h : (runAttempts oracle MAX_RETRIES msgs0).2 with e | v <;>
    simp [validatorRun, h]

/-- C2 (amended). The Validator makes up to `MAX_RETRIES = 3` LLM
attempts; an attempt is followed by another one exactly when it ended in
an empty response (`ValueError`) or a JSON parse failure and attempts
remain — after a parse failure the failed content and the corrective
follow-up user message are appended to the running conversation first —
while any other exception stops the loop at once (it is not retried). -/
theorem validator_retry_discipline (oracle : List Msg → AttemptOutcome)
    (msgs0 : List Msg) (rs : List SearchItem) :
    1 ≤ (validatorRun oracle msgs0 rs).trace.length
    ∧ (validatorRun oracle msgs0 rs).trace.length ≤ MAX_RETRIES
    ∧ (∀ p ∈ (validatorRun oracle msgs0 rs).trace.dropLast,
        p.2.retryable = true)
    ∧ (validatorRun oracle msgs0 rs).trace.Chain'
        (fun p q => q.1 = p.1 ++ appendFor p.2)
    ∧ (∀ p, (validatorRun oracle msgs0 rs).trace.getLast? = some p →
        p.2.retryable = true →
        (validatorRun oracle msgs0 rs).trace.length = MAX_RETRIES) := by
  obtain ⟨j1, j2, _, j4, j5, j6⟩ :=
    runAttempts_props oracle MAX_RETRIES msgs0 (by decide)
  rw [validatorRun_trace]
  exact ⟨j1, j2, j4, j5, j6⟩

/-- C2 counterexample. A non-`ValueError` exception on the first attempt
is not retried: exactly one attempt happens and the node degrades
directly to the error shell — refuting the claim that any exception
triggers a retry. -/
theorem validator_exception_not_retried :
    (validatorRun (fun _ => .otherExn "Connection reset by peer") [] []).trace.length
      = 1
    ∧ (validatorRun (fun _ => .otherExn "Connection reset by peer") [] []).status
      = "completed"
    ∧ (validatorRun (fun _ => .otherExn "Connection reset by peer") [] []).validated
      = errorShell "Connection reset by peer" [] :=
  ⟨rfl, rfl, rfl⟩

theorem runAttempts_all_fail (oracle : List Msg → AttemptOutcome)
    (h : ∀ m v, oracle m ≠ .parsedOk v) :
    ∀ fuel msgs, 1 ≤ fuel →
    ∃ p, (runAttempts oracle fuel msgs).1.getLast? = some p
      ∧ (runAttempts oracle fuel msgs).2 = .error p.2.errMsgOf := by
  intro fuel
  induction fuel with
  | zero => intro msgs hf; cases hf
  | succ n ih =>
      intro msgs _
      rcases ho : oracle msgs with v | ⟨c, e⟩ | e | e
      · exact absurd ho (h msgs v)
      · rcases n with _ | m
        · rw [runAttempts_one_parseFailed ho]
          exact ⟨(msgs, .parseFailed c e), rfl, rfl⟩
        · rw [runAttempts_succ2_parseFailed m ho]
          obtain ⟨p, hlast, herr⟩ := ih (msgs ++ [.ai c, correctiveMsg]) (by omega)
          obtain ⟨j1, _⟩ := runAttempts_props oracle (m + 1)
            (msgs ++ [.ai c, correctiveMsg]) (by omega)
          refine ⟨p, ?_, herr⟩
          rcases hT : (runAttempts oracle (m + 1) (msgs ++ [.ai c, correctiveMsg])).1
            with _ | ⟨q, T2⟩
          · rw [hT] at j1; simp at j1
          · rw [hT] at hlast
            rw [List.getLast?_cons_cons]
            exact hlast
      · rcases n with _ | m
        · rw [runAttempts_one_empty ho]
          exact ⟨(msgs, .emptyOrValueError e), rfl, rfl⟩
        · rw [runAttempts_succ2_empty m ho]
          obtain ⟨p, hlast, herr⟩ := ih msgs (by omega)
          obtain ⟨j1, _⟩ := runAttempts_props oracle (m + 1) msgs (by omega)
          refine ⟨p, ?_, herr⟩
          rcases hT : (runAttempts oracle (m + 1) msgs).1 with _ | ⟨q, T2⟩
          · rw [hT] at j1; simp at j1
          · rw [hT] at hlast
            rw [List.getLast?_cons_cons]
            exact hlast
      · rw [runAttempts_succ_otherExn n ho]
        exact ⟨(msgs, .otherExn e), rfl, rfl⟩

/-- C3. When every attempt fails, `validator_node` still terminates with
`status="completed"` (the run is a total function — nothing is raised)
and stores the error shell: `validation_result="error"`, a summary
containing the last error, `verified_regulations` equal to the trimmed
items, `confidence_score=0.3`, non-empty `warnings` and `limitations`,
and a disclaimer carrying both the zh and the en text. -/
theorem validator_degraded_error_shell (oracle : List Msg → AttemptOutcome)
    (msgs0 : List Msg) (rs : List SearchItem)
    (h : ∀ m v, oracle m ≠ AttemptOutcome.parsedOk v) :
    (validatorRun oracle msgs0 rs).status = "completed"
    ∧ (validatorRun oracle msgs0 rs).validated.validation_result = some "error"
    ∧ (validatorRun oracle msgs0 rs).validated.verified_regulations
        = some (trimResults rs).1
    ∧ (validatorRun oracle msgs0 rs).validated.confidence_score = some (3/10)
    ∧ (∃ w, (validatorRun oracle msgs0 rs).validated.warnings = some w ∧ w ≠ [])
    ∧ (∃ lim, (validatorRun oracle msgs0 rs).validated.limitations = some lim
        ∧ lim ≠ [])
    ∧ (validatorRun oracle msgs0 rs).validated.disclaimer
        = some defaultDisclaimer
    ∧ (∃ p, (validatorRun oracle msgs0 rs).trace.getLast? = some p
        ∧ (validatorRun oracle msgs0 rs).validated.summary
            = some ("驗證過程發生錯誤: " ++ p.2.errMsgOf)) := by
  obtain ⟨p, hlast, herr⟩ := runAttempts_all_fail oracle h MAX_RETRIES msgs0
    (by decide)
  have hrun : validatorRun oracle msgs0 rs
      = { trace := (runAttempts oracle MAX_RETRIES msgs0).1
          validated := errorShell p.2.errMsgOf (trimResults rs).1
          status := "completed" } := by
    simp [validatorRun, herr]
  rw [hrun]
  exact ⟨rfl, rfl, rfl, rfl, ⟨_, rfl, by simp⟩, ⟨_, rfl, by simp⟩, rfl,
    ⟨p, hlast, rfl⟩⟩

/-- C3 witness: a run whose oracle always returns the empty-response
error, evaluated at a concrete input. -/
theorem validator_degraded_error_shell_witness :
    (validatorRun (fun _ => AttemptOutcome.emptyOrValueError "LLM 返回空內容")
        [] []).status = "completed"
    ∧ (validatorRun (fun _ => AttemptOutcome.emptyOrValueError "LLM 返回空內容")
        [] []).validated.validation_result = some "error"
    ∧ (validatorRun (fun _ => AttemptOutcome.emptyOrValueError "LLM 返回空內容")
        [] []).validated.confidence_score = some (3/10) := by
  have h := validator_degraded_error_shell
    (fun _ => AttemptOutcome.emptyOrValueError "LLM 返回空內容") [] []
    (fun m v hc => AttemptOutcome.noConfusion hc)
  exact ⟨h.1, h.2.1, h.2.2.2.1⟩

/-- C7 (amended). The Planner extracts the JSON from the content of the
first ```json-tagged fence when that marker occurs in the LLM output,
otherwise it parses the bare content; whichever branch is taken, a parse
failure sets `status="error"` — there is no intermediate "any fenced
block" attempt and no fallback from a failed branch to another one. -/
theorem planner_extraction_discipline (jsonParse : String → Option PAnalysis)
    (content : String) :
    (pyContains content "```json" = true →
       plannerStatus jsonParse content
         = statusOf (jsonParse (fenceExtract content)))
    ∧ (pyContains content "```json" = false →
       plannerStatus jsonParse content = statusOf (jsonParse content))
    ∧ (plannerStatus jsonParse content = "error"
        ↔ plannerParse jsonParse content = none) := by
  refine ⟨?_, ?_, ?_⟩
  · intro h
    rw [plannerStatus, plannerParse, if_pos h]
  · intro h
    rw [plannerStatus, plannerParse, if_neg (by simp [h])]
  · rcases hp : plannerParse jsonParse content with _ | a
    · simp [plannerStatus, hp, statusOf]
    · rw [plannerStatus, hp]
      simp only [statusOf]
      constructor
      · intro hc
        by_cases hcl : a.clarification_needed = true
        · rw [if_pos hcl] at hc
          exact absurd hc (by decide)
        · rw [if_neg hcl] at hc
          exact absurd hc (by decide)
      · intro hc
        exact absurd hc (by simp)

/-- C7 counterexample. An LLM output wrapped in a plain (non-json-tagged)
fence whose body is valid JSON: the claimed fallback order would extract
and succeed, but the Planner as written parses the bare content, fails,
and sets `status="error"`. -/
theorem planner_anyfence_not_tried :
    plannerStatus jsonTableParse "```\n\x7b\x7d\n```" = "error"
    ∧ statusOf (plannerExtractClaimed jsonTableParse "```\n\x7b\x7d\n```")
      = "ready_to_search" := by
  constructor <;> rfl

theorem scheme_msg_ne (s : String) :
    ("不支援的協議: " ++ s ++ "，僅支援 http/https") ≠ "" := by
  intro hc
  have h1 := congrArg String.length hc
  rw [String.length_append, String.length_append] at h1
  have h2 : 0 < ("不支援的協議: " : String).length := by decide
  have h3 : ("" : String).length = 0 := rfl
  omega

/-- C4. The URL Guard rejects (with a non-empty reason) exactly when the
scheme is not http/https, the hostname is missing or empty, the
hostname is literally localhost, 0.0.0.0 or ::1, or the hostname
classifies as a private / loopback / reserved / link-local IP address —
and accepts (with an empty reason) in every other case.  The guard is a
pure function of the parsed URL and the `ipaddress` classifier: no DNS
resolution or I/O happens.  The hypothesis pins the one classifier fact
the equivalence rests on: `127.0.0.1` (which the code also blocks as a
literal) is a loopback address. -/
theorem url_guard_rejects_iff (ipc : String → Option IpFlags) (u : ParsedUrl)
    (h127 : ∃ fl, ipc "127.0.0.1" = some fl ∧ fl.is_loopback = true) :
    ((validateUrl ipc u).1 = false ↔ urlGuardSpecRejects ipc u = true)
    ∧ ((validateUrl ipc u).1 = false → (validateUrl ipc u).2 ≠ "")
    ∧ ((validateUrl ipc u).1 = true → (validateUrl ipc u).2 = "") := by
  obtain ⟨fl, hip, hlb⟩ := h127
  by_cases hs : u.scheme = "http" ∨ u.scheme = "https"
  · rcases hh : truthyStr u.hostname with _ | h
    · simp [validateUrl, urlGuardSpecRejects, hs, hh]
    · by_cases hbl : pyToLower h
          ∈ (["localhost", "127.0.0.1", "0.0.0.0", "::1"] : List String)
      · have hspec : urlGuardSpecRejects ipc u = true := by
          rcases List.mem_cons.mp hbl with h1 | hbl2
          · simp [urlGuardSpecRejects, hh, h1]
          rcases List.mem_cons.mp hbl2 with h1 | hbl3
          · simp [urlGuardSpecRejects, hh, h1, hip, hlb]
          rcases List.mem_cons.mp hbl3 with h1 | hbl4
          · simp [urlGuardSpecRejects, hh, h1]
          rcases List.mem_cons.mp hbl4 with h1 | hbl5
          · simp [urlGuardSpecRejects, hh, h1]
          · simp at hbl5
        simp [validateUrl, hs, hh, hbl, hspec]
      · have hlit : ¬(pyToLower h = "localhost" ∨ pyToLower h = "0.0.0.0"
            ∨ pyToLower h = "::1") := by
          intro hc
          apply hbl
          rcases hc with hc | hc | hc <;> simp [hc]
        rcases hipc : ipc (pyToLower h) with _ | ip
        · simp [validateUrl, urlGuardSpecRejects, hs, hh, hbl, hlit, hipc]
        · rcases hp : ip.is_private with _ | _
          · rcases hl : ip.is_loopback with _ | _
            · rcases hr : ip.is_reserved with _ | _
              · rcases hll : ip.is_link_local with _ | _
                · simp [validateUrl, urlGuardSpecRejects, hs, hh, hbl, hlit,
                    hipc, hp, hl, hr, hll]
                · simp [validateUrl, urlGuardSpecRejects, hs, hh, hbl, hlit,
                    hipc, hp, hl, hr, hll]
              · simp [validateUrl, urlGuardSpecRejects, hs, hh, hbl, hlit,
                  hipc, hp, hl, hr]
            · simp [validateUrl, urlGuardSpecRejects, hs, hh, hbl, hlit,
                hipc, hp, hl]
          · simp [validateUrl, urlGuardSpecRejects, hs, hh, hbl, hlit,
              hipc, hp]
  · refine ⟨?_, ?_, ?_⟩
    · simp [validateUrl, urlGuardSpecRejects, hs]
    · intro _
      rw [validateUrl, if_pos hs]
      exact scheme_msg_ne u.scheme
    · intro hc
      rw [validateUrl, if_pos hs] at hc
      cases hc

/-- C4 witness: the guard evaluated with the concrete IPv4 classifier on
a concrete public URL, the hypothesis discharged by computing the
classifier at `127.0.0.1`. -/
theorem url_guard_rejects_iff_witness :
    ((validateUrl ipClassify ⟨"http", some "law.moj.gov.tw"⟩).1 = false
      ↔ urlGuardSpecRejects ipClassify ⟨"http", some "law.moj.gov.tw"⟩ = true)
    ∧ ((validateUrl ipClassify ⟨"http", some "law.moj.gov.tw"⟩).1 = false →
        (validateUrl ipClassify ⟨"http", some "law.moj.gov.tw"⟩).2 ≠ "")
    ∧ ((validateUrl ipClassify ⟨"http", some "law.moj.gov.tw"⟩).1 = true →
        (validateUrl ipClassify ⟨"http", some "law.moj.gov.tw"⟩).2 = "") :=
  url_guard_rejects_iff ipClassify ⟨"http", some "law.moj.gov.tw"⟩
    ⟨{ is_private := true, is_loopback := true }, by decide, rfl⟩


end RegComp
